import Mathlib

/-!
Shallow embedding of the Synacor virtual machine (`src/lib.rs`).

The Rust `VirtualMachine` owns a 32768-cell `u16` memory, 8 `u16`
registers, an unbounded `Vec<u16>` stack, and a `u16` instruction
pointer.  Handlers return `Result<(), String>`; several operations can
additionally `panic!` (array indexing out of bounds, the decoder's
`panic!("Invalid instruction.")`, and `wrapping_rem` with divisor 0).
Panics are modelled by the `Except RustPanic` layer wrapped around the
`Result<(), String>` channel (modelled as `Except String Unit`).

`u16` values are modelled as `Nat`; the only arithmetic in the source
that can wrap is `wrapping_add` / `wrapping_mul` (reduced `% 65536`)
and the instruction-pointer increment (`% 65536`, unreachable in
practice because the fetch bound check fails first).
-/

namespace Synacor

/-- `const MODULO: u16 = 32768` in the source. -/
def MODULO : Nat := 32768

/-- The decoder output (`enum Instruction { Register(u16), Value(u16) }`). -/
inductive Instruction where
  | Register : Nat → Instruction
  | Value : Nat → Instruction
deriving DecidableEq, Repr

/-- The ways the Rust code can panic (abort outside the `Result` channel). -/
inductive RustPanic where
  /-- an array index `≥ 32768` on `memory` -/
  | indexOutOfBounds : RustPanic
  /-- `panic!("Invalid instruction.")` in `read_instruction` -/
  | invalidInstruction : RustPanic
  /-- `wrapping_rem` with a zero divisor -/
  | divByZero : RustPanic
deriving DecidableEq, Repr

/-- The machine state (`struct VirtualMachine`): memory is a total map on
cell indices (cells `0..32767` are meaningful, indexing is bounds-checked
at every access), registers a total map on `0..7`, the stack a LIFO list
(head = top of the `Vec`). -/
structure VM where
  memory : Nat → Nat
  registers : Nat → Nat
  stack : List Nat
  ip : Nat

/-- Functional update of the register file (`self.registers[a as usize] = v`). -/
def storeReg (a v : Nat) (regs : Nat → Nat) : Nat → Nat :=
  fun i => if i = a then v else regs i

/-- Functional update of memory (`self.memory[a as usize] = v`). -/
def storeMem (a v : Nat) (mem : Nat → Nat) : Nat → Nat :=
  fun i => if i = a then v else mem i

/-- `fn read_instruction`: fetch `memory[ip]` (panic when out of bounds),
advance `ip` by one (`u16` wrap), classify the word:
`0..32767 ↦ Value`, `32768..32775 ↦ Register (x % 32768)`,
otherwise `panic!("Invalid instruction.")`. -/
def read_instruction (vm : VM) : Except RustPanic (Instruction × VM) :=
  if vm.ip < 32768 then
    let instruction := vm.memory vm.ip
    let vm' := { vm with ip := (vm.ip + 1) % 65536 }
    if instruction ≤ 32767 then
      .ok (Instruction.Value instruction, vm')
    else if instruction ≤ 32775 then
      .ok (Instruction.Register (instruction % 32768), vm')
    else
      .error RustPanic.invalidInstruction
  else
    .error RustPanic.indexOutOfBounds

/-- The repeated inline pattern
`match ... { Register(x) => self.registers[x as usize], Value(x) => x }`:
the "resolved value" accessor of the spec. -/
def resolve (i : Instruction) (vm : VM) : Nat :=
  match i with
  | .Register x => vm.registers x
  | .Value x => x

/-- Error message of a write-destination operand that decoded as a value. -/
def writeToValueMsg : String := "Trying to write to a value!"

/-- Error message of `pop`/`ret` on an empty stack. -/
def emptyStackMsg : String := "Reading from an empty stack!"

/-- Message of the `Err` that `halt` uses to stop the loop. -/
def haltingMsg : String := "Halting execution."

/-- Message of the dispatch default arm. -/
def invalidOpcodeMsg : String := "Invalid opcode."

/-- Stand-in for `x.to_string()` of the `io::Error` that `read_exact`
returns when stdin yields no byte. -/
def inputErrMsg : String := "failed to fill whole buffer"

/-- `fn halt`: always `Err("Halting execution.")`, no state change. -/
def halt (vm : VM) : Except RustPanic (Except String Unit × VM) :=
  .ok (.error haltingMsg, vm)

/-- `fn set`: destination must decode as a register, then
`registers[a] := resolve(b)`. -/
def set (vm : VM) : Except RustPanic (Except String Unit × VM) :=
  match read_instruction vm with
  | .error p => .error p
  | .ok (.Value _, vm) => .ok (.error writeToValueMsg, vm)
  | .ok (.Register a, vm) =>
    match read_instruction vm with
    | .error p => .error p
    | .ok (ib, vm) =>
      let b := resolve ib vm
      .ok (.ok (), { vm with registers := storeReg a b vm.registers })

/-- `fn push`: `stack.push(resolve(a))`. -/
def push (vm : VM) : Except RustPanic (Except String Unit × VM) :=
  match read_instruction vm with
  | .error p => .error p
  | .ok (ia, vm) =>
    let a := resolve ia vm
    .ok (.ok (), { vm with stack := a :: vm.stack })

/-- `fn pop`: destination must decode as a register, then pop the stack
into it; `Err("Reading from an empty stack!")` when the stack is empty. -/
def pop (vm : VM) : Except RustPanic (Except String Unit × VM) :=
  match read_instruction vm with
  | .error p => .error p
  | .ok (.Value _, vm) => .ok (.error writeToValueMsg, vm)
  | .ok (.Register a, vm) =>
    match vm.stack with
    | [] => .ok (.error emptyStackMsg, vm)
    | b :: rest =>
      .ok (.ok (), { vm with registers := storeReg a b vm.registers, stack := rest })

/-- `fn eq`: `registers[a] := u16::from(resolve(b) == resolve(c))`. -/
def eq (vm : VM) : Except RustPanic (Except String Unit × VM) :=
  match read_instruction vm with
  | .error p => .error p
  | .ok (.Value _, vm) => .ok (.error writeToValueMsg, vm)
  | .ok (.Register a, vm) =>
    match read_instruction vm with
    | .error p => .error p
    | .ok (ib, vm) =>
      let b := resolve ib vm
      match read_instruction vm with
      | .error p => .error p
      | .ok (ic, vm) =>
        let c := resolve ic vm
        .ok (.ok (), { vm with registers :=
                       storeReg a (if b = c then 1 else 0) vm.registers })

/-- `fn gt`: `registers[a] := u16::from(resolve(b) > resolve(c))`. -/
def gt (vm : VM) : Except RustPanic (Except String Unit × VM) :=
  match read_instruction vm with
  | .error p => .error p
  | .ok (.Value _, vm) => .ok (.error writeToValueMsg, vm)
  | .ok (.Register a, vm) =>
    match read_instruction vm with
    | .error p => .error p
    | .ok (ib, vm) =>
      let b := resolve ib vm
      match read_instruction vm with
      | .error p => .error p
      | .ok (ic, vm) =>
        let c := resolve ic vm
        .ok (.ok (), { vm with registers :=
                       storeReg a (if b > c then 1 else 0) vm.registers })

/-- `fn jmp`: `instruction_pointer := resolve(a)`. -/
def jmp (vm : VM) : Except RustPanic (Except String Unit × VM) :=
  match read_instruction vm with
  | .error p => .error p
  | .ok (ia, vm) =>
    let a := resolve ia vm
    .ok (.ok (), { vm with ip := a })

/-- `fn jt`: if `resolve(a) ≠ 0`, `instruction_pointer := resolve(b)`. -/
def jt (vm : VM) : Except RustPanic (Except String Unit × VM) :=
  match read_instruction vm with
  | .error p => .error p
  | .ok (ia, vm) =>
    let a := resolve ia vm
    match read_instruction vm with
    | .error p => .error p
    | .ok (ib, vm) =>
      let b := resolve ib vm
      match a with
      | 0 => .ok (.ok (), vm)
      | _ + 1 => .ok (.ok (), { vm with ip := b })

/-- `fn jf`: if `resolve(a) = 0`, `instruction_pointer := resolve(b)`. -/
def jf (vm : VM) : Except RustPanic (Except String Unit × VM) :=
  match read_instruction vm with
  | .error p => .error p
  | .ok (ia, vm) =>
    let a := resolve ia vm
    match read_instruction vm with
    | .error p => .error p
    | .ok (ib, vm) =>
      let b := resolve ib vm
      match a with
      | 0 => .ok (.ok (), { vm with ip := b })
      | _ + 1 => .ok (.ok (), vm)

/-- `b.wrapping_add(c) % MODULO` on `u16`. -/
def addOp (b c : Nat) : Nat := ((b + c) % 65536) % MODULO

/-- `b.wrapping_mul(c) % MODULO` on `u16`. -/
def multOp (b c : Nat) : Nat := ((b * c) % 65536) % MODULO

/-- `fn add`: `registers[a] := resolve(b).wrapping_add(resolve(c)) % MODULO`. -/
def add (vm : VM) : Except RustPanic (Except String Unit × VM) :=
  match read_instruction vm with
  | .error p => .error p
  | .ok (.Value _, vm) => .ok (.error writeToValueMsg, vm)
  | .ok (.Register a, vm) =>
    match read_instruction vm with
    | .error p => .error p
    | .ok (ib, vm) =>
      let b := resolve ib vm
      match read_instruction vm with
      | .error p => .error p
      | .ok (ic, vm) =>
        let c := resolve ic vm
        .ok (.ok (), { vm with registers := storeReg a (addOp b c) vm.registers })

/-- `fn mult`: `registers[a] := resolve(b).wrapping_mul(resolve(c)) % MODULO`. -/
def mult (vm : VM) : Except RustPanic (Except String Unit × VM) :=
  match read_instruction vm with
  | .error p => .error p
  | .ok (.Value _, vm) => .ok (.error writeToValueMsg, vm)
  | .ok (.Register a, vm) =>
    match read_instruction vm with
    | .error p => .error p
    | .ok (ib, vm) =>
      let b := resolve ib vm
      match read_instruction vm with
      | .error p => .error p
      | .ok (ic, vm) =>
        let c := resolve ic vm
        .ok (.ok (), { vm with registers := storeReg a (multOp b c) vm.registers })

/-- `fn rem` (opcode 11, "mod"): `registers[a] := resolve(b).wrapping_rem(resolve(c))`;
`wrapping_rem` panics when the divisor is 0 — there is no guard. -/
def rem (vm : VM) : Except RustPanic (Except String Unit × VM) :=
  match read_instruction vm with
  | .error p => .error p
  | .ok (.Value _, vm) => .ok (.error writeToValueMsg, vm)
  | .ok (.Register a, vm) =>
    match read_instruction vm with
    | .error p => .error p
    | .ok (ib, vm) =>
      let b := resolve ib vm
      match read_instruction vm with
      | .error p => .error p
      | .ok (ic, vm) =>
        let c := resolve ic vm
        if c = 0 then
          .error RustPanic.divByZero
        else
          .ok (.ok (), { vm with registers := storeReg a (b % c) vm.registers })

/-- `fn and`: `registers[a] := resolve(b) & resolve(c)`. -/
def and (vm : VM) : Except RustPanic (Except String Unit × VM) :=
  match read_instruction vm with
  | .error p => .error p
  | .ok (.Value _, vm) => .ok (.error writeToValueMsg, vm)
  | .ok (.Register a, vm) =>
    match read_instruction vm with
    | .error p => .error p
    | .ok (ib, vm) =>
      let b := resolve ib vm
      match read_instruction vm with
      | .error p => .error p
      | .ok (ic, vm) =>
        let c := resolve ic vm
        .ok (.ok (), { vm with registers := storeReg a (b &&& c) vm.registers })

/-- `fn or`: `registers[a] := resolve(b) | resolve(c)`. -/
def or (vm : VM) : Except RustPanic (Except String Unit × VM) :=
  match read_instruction vm with
  | .error p => .error p
  | .ok (.Value _, vm) => .ok (.error writeToValueMsg, vm)
  | .ok (.Register a, vm) =>
    match read_instruction vm with
    | .error p => .error p
    | .ok (ib, vm) =>
      let b := resolve ib vm
      match read_instruction vm with
      | .error p => .error p
      | .ok (ic, vm) =>
        let c := resolve ic vm
        .ok (.ok (), { vm with registers := storeReg a (b ||| c) vm.registers })

/-- `fn not`: `registers[a] := resolve(b) ^ 32767` (15-bit complement). -/
def not (vm : VM) : Except RustPanic (Except String Unit × VM) :=
  match read_instruction vm with
  | .error p => .error p
  | .ok (.Value _, vm) => .ok (.error writeToValueMsg, vm)
  | .ok (.Register a, vm) =>
    match read_instruction vm with
    | .error p => .error p
    | .ok (ib, vm) =>
      let b := resolve ib vm
      .ok (.ok (), { vm with registers := storeReg a (b ^^^ 32767) vm.registers })

/-- `fn rmem`: `registers[a] := memory[resolve(b)]` — the memory index is
bounds-checked (panic at `≥ 32768`); the fetched word is NOT decoded. -/
def rmem (vm : VM) : Except RustPanic (Except String Unit × VM) :=
  match read_instruction vm with
  | .error p => .error p
  | .ok (.Value _, vm) => .ok (.error writeToValueMsg, vm)
  | .ok (.Register a, vm) =>
    match read_instruction vm with
    | .error p => .error p
    | .ok (ib, vm) =>
      let b := resolve ib vm
      if b < 32768 then
        .ok (.ok (), { vm with registers := storeReg a (vm.memory b) vm.registers })
      else
        .error RustPanic.indexOutOfBounds

/-- `fn wmem`: `memory[resolve(a)] := resolve(b)` — the memory index is
bounds-checked (panic at `≥ 32768`); the stored word is NOT validated. -/
def wmem (vm : VM) : Except RustPanic (Except String Unit × VM) :=
  match read_instruction vm with
  | .error p => .error p
  | .ok (ia, vm) =>
    let a := resolve ia vm
    match read_instruction vm with
    | .error p => .error p
    | .ok (ib, vm) =>
      let b := resolve ib vm
      if a < 32768 then
        .ok (.ok (), { vm with memory := storeMem a b vm.memory })
      else
        .error RustPanic.indexOutOfBounds

/-- `fn call`: `stack.push(instruction_pointer); instruction_pointer := resolve(a)`. -/
def call (vm : VM) : Except RustPanic (Except String Unit × VM) :=
  match read_instruction vm with
  | .error p => .error p
  | .ok (ia, vm) =>
    let a := resolve ia vm
    .ok (.ok (), { vm with stack := vm.ip :: vm.stack, ip := a })

/-- `fn ret`: pop the stack into the instruction pointer;
`Err("Reading from an empty stack!")` when the stack is empty. -/
def ret (vm : VM) : Except RustPanic (Except String Unit × VM) :=
  match vm.stack with
  | [] => .ok (.error emptyStackMsg, vm)
  | x :: rest => .ok (.ok (), { vm with ip := x, stack := rest })

/-- `fn write` (opcode 19, "out"): emit the low byte of `resolve(a)`.
`stdoutCond` models the `io::Result` of the underlying byte write, which
the source discards (`let _ = io::stdout().write(&[a]);`). -/
def write (stdoutCond : Except String Unit) (vm : VM) (out : List Nat) :
    Except RustPanic (Except String Unit × VM × List Nat) :=
  match read_instruction vm with
  | .error p => .error p
  | .ok (ia, vm) =>
    let a := resolve ia vm % 256
    let _ := stdoutCond
    .ok (.ok (), vm, out ++ [a])

/-- `fn read` (opcode 20, "in"): destination must decode as a register;
consume one byte from stdin (modelled as a list of bytes), failing with
the io error's message when the stream yields no byte. -/
def read (vm : VM) (input : List Nat) :
    Except RustPanic (Except String Unit × VM × List Nat) :=
  match read_instruction vm with
  | .error p => .error p
  | .ok (.Value _, vm) => .ok (.error writeToValueMsg, vm, input)
  | .ok (.Register a, vm) =>
    match input with
    | [] => .ok (.error inputErrMsg, vm, [])
    | b :: rest =>
      .ok (.ok (), { vm with registers := storeReg a b vm.registers }, rest)

/-- Outcome of `execute_program` in the embedding. `ok` is the Rust
`Ok(())` return (present in the return type, though the loop can only
exit with an `Err`), `err` an `Err(msg)` return, `panic` an abort outside
the `Result` channel, `outOfFuel` a still-running machine. -/
inductive RunResult where
  | ok : RunResult
  | err : String → RunResult
  | panic : RustPanic → RunResult
  | outOfFuel : RunResult
deriving DecidableEq, Repr

/-- Whether a run outcome is an `Err(msg)` return. -/
def RunResult.isErr : RunResult → Bool
  | .err _ => true
  | _ => false

/-- Lift a handler that touches no I/O into the loop's result shape. -/
def liftH (r : Except RustPanic (Except String Unit × VM)) (inp out : List Nat) :
    Except RustPanic (Except String Unit × VM × List Nat × List Nat) :=
  match r with
  | .error p => .error p
  | .ok (e, vm) => .ok (e, vm, inp, out)

/-- `fn execute_program`: fetch a word, dispatch on its raw numeric value
(extracted from either decoder variant), run the handler, loop while the
handler returns `Ok(())`; the first `Err` (halt included) is returned.
`fuel` bounds the number of iterations; the in-loop stdout condition is a
successful write (its result is discarded by `write` anyway). -/
def execute_program : Nat → VM → List Nat → List Nat →
    RunResult × VM × List Nat × List Nat
  | 0, vm, inp, out => (RunResult.outOfFuel, vm, inp, out)
  | Nat.succ fuel, vm, inp, out =>
    match read_instruction vm with
    | .error p => (RunResult.panic p, vm, inp, out)
    | .ok (i, vm) =>
      let instruction := match i with
        | .Register x => x
        | .Value x => x
      let r :=
        match instruction with
        | 0 => liftH (halt vm) inp out
        | 1 => liftH (set vm) inp out
        | 2 => liftH (push vm) inp out
        | 3 => liftH (pop vm) inp out
        | 4 => liftH (eq vm) inp out
        | 5 => liftH (gt vm) inp out
        | 6 => liftH (jmp vm) inp out
        | 7 => liftH (jt vm) inp out
        | 8 => liftH (jf vm) inp out
        | 9 => liftH (add vm) inp out
        | 10 => liftH (mult vm) inp out
        | 11 => liftH (rem vm) inp out
        | 12 => liftH (and vm) inp out
        | 13 => liftH (or vm) inp out
        | 14 => liftH (not vm) inp out
        | 15 => liftH (rmem vm) inp out
        | 16 => liftH (wmem vm) inp out
        | 17 => liftH (call vm) inp out
        | 18 => liftH (ret vm) inp out
        | 19 =>
          match write (.ok ()) vm out with
          | .error p => .error p
          | .ok (e, vm, out) => .ok (e, vm, inp, out)
        | 20 =>
          match read vm inp with
          | .error p => .error p
          | .ok (e, vm, inp) => .ok (e, vm, inp, out)
        | 21 => liftH (.ok (.ok (), vm)) inp out
        | _ => liftH (.ok (.error invalidOpcodeMsg, vm)) inp out
      match r with
      | .error p => (RunResult.panic p, vm, inp, out)
      | .ok (Except.ok _, vm, inp, out) => execute_program fuel vm inp out
      | .ok (Except.error msg, vm, inp, out) => (RunResult.err msg, vm, inp, out)

/-- The memory after `load_program` of an image (zero-initialised cells
past the image, as in `VirtualMachine::new`). -/
def loadImage (img : List Nat) : Nat → Nat :=
  fun i => img.getD i 0

/-- A machine as built by `new()` followed by `load_program`. -/
def initVM (img : List Nat) : VM :=
  { memory := loadImage img, registers := fun _ => 0, stack := [], ip := 0 }

/-- Whether an I/O-handler result is a success return (`Ok(())`). -/
def isHandlerSuccess (r : Except RustPanic (Except String Unit × VM × List Nat)) :
    Bool :=
  match r with
  | .ok (.ok _, _, _) => true
  | _ => false

/-- Apply a list of `wmem`-style writes (address, value) to a memory map,
in order, each one through the `storeMem` update that `wmem` performs. -/
def applyWrites (ws : List (Nat × Nat)) (m : Nat → Nat) : Nat → Nat :=
  ws.foldl (fun m p => storeMem p.1 p.2 m) m

/-- All registers hold values in `0..32767`. -/
def GoodRegs (vm : VM) : Prop := ∀ i, vm.registers i ≤ 32767

/-- A handler returning `Err` leaves registers, memory and stack exactly
as they were when the handler started. -/
def FramePreserving (h : VM → Except RustPanic (Except String Unit × VM)) : Prop :=
  ∀ vm msg vm', h vm = Except.ok (Except.error msg, vm') →
    vm'.registers = vm.registers ∧ vm'.memory = vm.memory ∧ vm'.stack = vm.stack

/-! ## Supporting lemmas -/

/-- A successful fetch only advances the instruction pointer: registers,
memory and stack are untouched. -/
theorem read_instruction_frame {vm vm' : VM} {i : Instruction}
    (h : read_instruction vm = Except.ok (i, vm')) :
    vm'.registers = vm.registers ∧ vm'.memory = vm.memory ∧
      vm'.stack = vm.stack ∧ vm'.ip = (vm.ip + 1) % 65536 := by
  unfold read_instruction at h
  dsimp only at h
  split at h
  · split at h
    · simp only [Except.ok.injEq, Prod.mk.injEq] at h
      obtain ⟨-, h2⟩ := h
      subst h2
      exact ⟨rfl, rfl, rfl, rfl⟩
    · split at h
      · simp only [Except.ok.injEq, Prod.mk.injEq] at h
        obtain ⟨-, h2⟩ := h
        subst h2
        exact ⟨rfl, rfl, rfl, rfl⟩
      · cases h
  · cases h

/-- A word decoded as a `Value` is `≤ 32767`. -/
theorem read_instruction_value_le {vm vm' : VM} {x : Nat}
    (h : read_instruction vm = Except.ok (Instruction.Value x, vm')) :
    x ≤ 32767 := by
  unfold read_instruction at h
  dsimp only at h
  split at h
  · split at h
    · simp only [Except.ok.injEq, Prod.mk.injEq, Instruction.Value.injEq] at h
      omega
    · split at h
      · simp at h
      · cases h
  · cases h

/-- A word decoded as a `Register` names one of the 8 registers. -/
theorem read_instruction_register_le {vm vm' : VM} {a : Nat}
    (h : read_instruction vm = Except.ok (Instruction.Register a, vm')) :
    a ≤ 7 := by
  unfold read_instruction at h
  dsimp only at h
  split at h
  · split at h
    · simp at h
    · split at h
      · simp only [Except.ok.injEq, Prod.mk.injEq, Instruction.Register.injEq] at h
        omega
      · cases h
  · cases h

/-! ## C2 — operand decoding -/

/-- C2 (amended): for an in-bounds fetch, a word `w ≤ 32767` decodes as
`Value w`; a word `32768 ≤ w ≤ 32775` decodes as `Register (w − 32768)`;
a word `w ≥ 32776` makes `read_instruction` panic
(`panic!("Invalid instruction.")`) — an unrecoverable abort, which the
run loop surfaces as a panic outcome, not as an `Err` on the error
channel. -/
theorem decode_trichotomy (vm : VM) (hip : vm.ip < 32768) :
    (vm.memory vm.ip ≤ 32767 →
      read_instruction vm =
        Except.ok (Instruction.Value (vm.memory vm.ip),
          { vm with ip := (vm.ip + 1) % 65536 })) ∧
    (32768 ≤ vm.memory vm.ip → vm.memory vm.ip ≤ 32775 →
      read_instruction vm =
        Except.ok (Instruction.Register (vm.memory vm.ip - 32768),
          { vm with ip := (vm.ip + 1) % 65536 })) ∧
    (32776 ≤ vm.memory vm.ip →
      read_instruction vm = Except.error RustPanic.invalidInstruction) ∧
    (∀ fuel inp out, 32776 ≤ vm.memory vm.ip →
      (execute_program (fuel + 1) vm inp out).1 =
        RunResult.panic RustPanic.invalidInstruction) := by
  have hmod : 32768 ≤ vm.memory vm.ip → vm.memory vm.ip ≤ 32775 →
      vm.memory vm.ip % 32768 = vm.memory vm.ip - 32768 := by omega
  refine ⟨?_, ?_, ?_, ?_⟩
  · intro h
    unfold read_instruction
    rw [if_pos hip, if_pos h]
  · intro h1 h2
    unfold read_instruction
    rw [if_pos hip, if_neg (by omega), if_pos h2, hmod h1 h2]
  · intro h
    unfold read_instruction
    rw [if_pos hip, if_neg (by omega), if_neg (by omega)]
  · intro fuel inp out h
    have hri : read_instruction vm = Except.error RustPanic.invalidInstruction := by
      unfold read_instruction
      rw [if_pos hip, if_neg (by omega), if_neg (by omega)]
    unfold execute_program
    rw [hri]

/-- C2 witness: the amended claim instantiated at concrete machines — a
word 5 decodes as `Value 5`, 32770 as `Register 2`, and 32776 panics,
with the one-instruction run ending in the panic outcome. -/
theorem decode_trichotomy_witness :
    read_instruction (initVM [5]) =
      Except.ok (Instruction.Value 5,
        { initVM [5] with ip := (0 + 1) % 65536 }) ∧
    read_instruction (initVM [32770]) =
      Except.ok (Instruction.Register (32770 - 32768),
        { initVM [32770] with ip := (0 + 1) % 65536 }) ∧
    read_instruction (initVM [32776]) = Except.error RustPanic.invalidInstruction ∧
    (execute_program 1 (initVM [32776]) [] []).1 =
      RunResult.panic RustPanic.invalidInstruction :=
  ⟨(decode_trichotomy (initVM [5]) (by decide)).1 (by decide),
   (decode_trichotomy (initVM [32770]) (by decide)).2.1 (by decide) (by decide),
   (decode_trichotomy (initVM [32776]) (by decide)).2.2.1 (by decide),
   (decode_trichotomy (initVM [32776]) (by decide)).2.2.2 0 [] [] (by decide)⟩

/-- C2 counterexample: fetching the word 32776 does not fail with an
error that `execute_program` returns on the error channel — it panics
(`panic!("Invalid instruction.")`), and the run's terminal outcome is the
panic, not an `Err`. -/
theorem decode_panic_not_error :
    read_instruction (initVM [32776]) = Except.error RustPanic.invalidInstruction ∧
    (execute_program 1 (initVM [32776]) [] []).1 =
      RunResult.panic RustPanic.invalidInstruction ∧
    ((execute_program 1 (initVM [32776]) [] []).1).isErr = false :=
  ⟨rfl, rfl, rfl⟩

/-! ## C1 — halt and the error channel -/

/-- C1 (amended): reaching an opcode-0 word makes `execute_program`
terminate by returning `Err("Halting execution.")` — halt is surfaced on
the error channel, and the success value `Ok(())` is never returned by
`execute_program` at all. -/
theorem halt_on_error_channel :
    (∀ fuel vm inp out, vm.ip < 32768 → vm.memory vm.ip = 0 →
      execute_program (fuel + 1) vm inp out =
        (RunResult.err haltingMsg,
          { vm with ip := (vm.ip + 1) % 65536 }, inp, out)) ∧
    (∀ fuel vm inp out, (execute_program fuel vm inp out).1 ≠ RunResult.ok) := by
  constructor
  · intro fuel vm inp out hip h0
    have hri : read_instruction vm =
        Except.ok (Instruction.Value 0, { vm with ip := (vm.ip + 1) % 65536 }) := by
      unfold read_instruction
      rw [if_pos hip, h0]
      rfl
    unfold execute_program
    rw [hri]
    rfl
  · intro fuel
    induction fuel with
    | zero =>
      intro vm inp out
      simp [execute_program]
    | succ n ih =>
      intro vm inp out
      unfold execute_program
      cases hri : read_instruction vm with
      | error p => simp
      | ok pr =>
        obtain ⟨i, vm1⟩ := pr
        dsimp only
        split
        · simp
        · rename_i heq
          exact ih _ _ _
        · simp

/-- C1 witness: the amended claim at the one-word image `[0]`. -/
theorem halt_on_error_channel_witness :
    execute_program 1 (initVM [0]) [] [] =
      (RunResult.err haltingMsg, { initVM [0] with ip := (0 + 1) % 65536 }, [], []) ∧
    (execute_program 7 (initVM [0]) [] []).1 ≠ RunResult.ok :=
  ⟨halt_on_error_channel.1 0 (initVM [0]) [] [] (by decide) (by decide),
   halt_on_error_channel.2 7 (initVM [0]) [] []⟩

/-- C1 counterexample: on the image `[0]` (a single halt), the
run-to-completion call returns `Err("Halting execution.")`, which is not
the success outcome `Ok(())`. -/
theorem halt_returns_err_counterexample :
    (execute_program 1 (initVM [0]) [] []).1 = RunResult.err "Halting execution." ∧
    RunResult.err "Halting execution." ≠ RunResult.ok :=
  ⟨rfl, by decide⟩

/-! ## C9 — out-of-bounds accesses are reachable -/

/-- C9: a register loaded by `rmem` from an image word `≥ 32768` and then
used by `jmp` drives the instruction pointer past the 32768-cell memory;
the next fetch takes the out-of-bounds branch (a Rust index panic), not
any error kind of the `Result` channel.  Image: `rmem r0, [5]`
(loads 40000 into register 0), `jmp r0`, then the fetch at 40000 panics. -/
theorem oob_access_reachable :
    (execute_program 3 (initVM [15, 32768, 5, 6, 32768, 40000]) [] []).1 =
      RunResult.panic RustPanic.indexOutOfBounds ∧
    ((execute_program 3 (initVM [15, 32768, 5, 6, 32768, 40000]) [] []).1).isErr
      = false :=
  ⟨rfl, rfl⟩

/-! ## C6 — the mod opcode -/

/-- C6: whenever the `mod` handler's three operand fetches succeed with a
register destination `a` and the divisor operand resolves to a nonzero
value, register `a` is set to `resolve(b) mod resolve(c)`; the handler
has no explicit zero-divisor guard — with a zero divisor it panics
(`wrapping_rem` aborts), so `resolve(c) ≠ 0` is exactly the precondition. -/
theorem rem_mod_spec :
    ∀ vm a vm1 ib vm2 ic vm3,
      read_instruction vm = Except.ok (Instruction.Register a, vm1) →
      read_instruction vm1 = Except.ok (ib, vm2) →
      read_instruction vm2 = Except.ok (ic, vm3) →
      (resolve ic vm3 ≠ 0 →
        rem vm = Except.ok (Except.ok (),
          { vm3 with registers :=
              storeReg a (resolve ib vm2 % resolve ic vm3) vm3.registers })) ∧
      (resolve ic vm3 = 0 → rem vm = Except.error RustPanic.divByZero) := by
  intro vm a vm1 ib vm2 ic vm3 h1 h2 h3
  constructor
  · intro hc
    simp only [rem, h1, h2, h3, if_neg hc]
  · intro hc
    simp only [rem, h1, h2, h3, if_pos hc]

/-- C6 witness: `mod r0, 7, 3` sets register 0 to `7 % 3 = 1`. -/
theorem rem_mod_spec_witness :
    rem (VM.mk (loadImage [32768, 7, 3]) (fun _ => 0) [] 0) =
      Except.ok (Except.ok (),
        VM.mk (loadImage [32768, 7, 3]) (storeReg 0 (7 % 3) (fun _ => 0)) [] 3) := by
  have h := (rem_mod_spec (VM.mk (loadImage [32768, 7, 3]) (fun _ => 0) [] 0)
    0 (VM.mk (loadImage [32768, 7, 3]) (fun _ => 0) [] 1)
    (Instruction.Value 7) (VM.mk (loadImage [32768, 7, 3]) (fun _ => 0) [] 2)
    (Instruction.Value 3) (VM.mk (loadImage [32768, 7, 3]) (fun _ => 0) [] 3)
    rfl rfl rfl).1 (by decide)
  exact h

/-! ## C7 — add and mult -/

/-- C7: `addOp`/`multOp` (the exact value expressions of the `add` and
`mult` handlers) are commutative and always land in `0..32767`; the
handlers write exactly these values to the destination register; and
`addOp 32767 5 = (32767 + 5) mod 32768 = 4`. -/
theorem add_mult_comm_range :
    (∀ b c, addOp b c = addOp c b ∧ addOp b c ≤ 32767 ∧
      multOp b c = multOp c b ∧ multOp b c ≤ 32767) ∧
    addOp 32767 5 = 4 ∧
    (∀ vm a vm1 ib vm2 ic vm3,
      read_instruction vm = Except.ok (Instruction.Register a, vm1) →
      read_instruction vm1 = Except.ok (ib, vm2) →
      read_instruction vm2 = Except.ok (ic, vm3) →
      add vm = Except.ok (Except.ok (),
        { vm3 with registers :=
            storeReg a (addOp (resolve ib vm2) (resolve ic vm3)) vm3.registers }) ∧
      mult vm = Except.ok (Except.ok (),
        { vm3 with registers :=
            storeReg a (multOp (resolve ib vm2) (resolve ic vm3)) vm3.registers })) := by
  refine ⟨?_, by decide, ?_⟩
  · intro b c
    refine ⟨by rw [addOp, addOp, Nat.add_comm], ?_,
            by rw [multOp, multOp, Nat.mul_comm], ?_⟩
    · have h := Nat.mod_lt ((b + c) % 65536) (show 0 < MODULO by decide)
      unfold MODULO at h
      simp only [addOp, MODULO]
      omega
    · have h := Nat.mod_lt ((b * c) % 65536) (show 0 < MODULO by decide)
      unfold MODULO at h
      simp only [multOp, MODULO]
      omega
  · intro vm a vm1 ib vm2 ic vm3 h1 h2 h3
    constructor
    · simp only [add, h1, h2, h3]
    · simp only [mult, h1, h2, h3]

/-- C7 witness: `add r0, 7, 5` writes `addOp 7 5 = 12`, the operand order
is irrelevant, and the spec's example value `addOp 32767 5 = 4`. -/
theorem add_mult_comm_range_witness :
    addOp 7 5 = addOp 5 7 ∧
    addOp 32767 5 = 4 ∧
    add (VM.mk (loadImage [32768, 7, 5]) (fun _ => 0) [] 0) =
      Except.ok (Except.ok (),
        VM.mk (loadImage [32768, 7, 5]) (storeReg 0 (addOp 7 5) (fun _ => 0)) [] 3) := by
  refine ⟨(add_mult_comm_range.1 7 5).1, add_mult_comm_range.2.1, ?_⟩
  have h := (add_mult_comm_range.2.2 (VM.mk (loadImage [32768, 7, 5]) (fun _ => 0) [] 0)
    0 (VM.mk (loadImage [32768, 7, 5]) (fun _ => 0) [] 1)
    (Instruction.Value 7) (VM.mk (loadImage [32768, 7, 5]) (fun _ => 0) [] 2)
    (Instruction.Value 5) (VM.mk (loadImage [32768, 7, 5]) (fun _ => 0) [] 3)
    rfl rfl rfl).1
  exact h

/-! ## C4 — pop and ret on an empty stack -/

/-- C4 (amended): on an empty stack `ret` fails with the stack-underflow
error and changes nothing at all; `pop`, when its destination operand
fetch yields a register reference, fails with the stack-underflow error
and mutates no register, no memory cell and not the stack — but its
operand fetch has already advanced the instruction pointer by one. -/
theorem pop_ret_stack_underflow :
    ∀ vm, vm.stack = [] →
      ret vm = Except.ok (Except.error emptyStackMsg, vm) ∧
      (∀ a vm1, read_instruction vm = Except.ok (Instruction.Register a, vm1) →
        pop vm = Except.ok (Except.error emptyStackMsg, vm1) ∧
        vm1.registers = vm.registers ∧ vm1.memory = vm.memory ∧
        vm1.stack = [] ∧ vm1.ip = (vm.ip + 1) % 65536) := by
  intro vm hst
  constructor
  · simp only [ret, hst]
  · intro a vm1 h1
    obtain ⟨hr, hm, hs, hip⟩ := read_instruction_frame h1
    have hst1 : vm1.stack = [] := by rw [hs, hst]
    refine ⟨?_, hr, hm, hst1, hip⟩
    simp only [pop, h1, hst1]

/-- C4 witness: the amended claim at concrete empty-stack machines
(`ret` on image `[18]`, `pop` on image `[32768]`). -/
theorem pop_ret_stack_underflow_witness :
    ret (VM.mk (loadImage [18]) (fun _ => 0) [] 0) =
      Except.ok (Except.error emptyStackMsg,
        VM.mk (loadImage [18]) (fun _ => 0) [] 0) ∧
    pop (VM.mk (loadImage [32768]) (fun _ => 0) [] 0) =
      Except.ok (Except.error emptyStackMsg,
        VM.mk (loadImage [32768]) (fun _ => 0) [] 1) :=
  ⟨(pop_ret_stack_underflow (VM.mk (loadImage [18]) (fun _ => 0) [] 0) rfl).1,
   ((pop_ret_stack_underflow (VM.mk (loadImage [32768]) (fun _ => 0) [] 0) rfl).2 0
      (VM.mk (loadImage [32768]) (fun _ => 0) [] 1) rfl).1⟩

/-- C4 counterexample: `pop` on an empty stack does fail with the
stack-underflow error, but it mutates the instruction pointer — the
destination-operand fetch advances it from 0 to 1. -/
theorem pop_moves_ip_counterexample :
    pop (VM.mk (loadImage [32768]) (fun _ => 0) [] 0) =
      Except.ok (Except.error emptyStackMsg,
        VM.mk (loadImage [32768]) (fun _ => 0) [] 1) ∧
    (VM.mk (loadImage [32768]) (fun _ => 0) [] 1).ip ≠
      (VM.mk (loadImage [32768]) (fun _ => 0) [] 0).ip :=
  ⟨rfl, by decide⟩

/-! ## C8 — wmem/rmem round trip -/

/-- Writes at other addresses never change what a cell holds. -/
theorem applyWrites_not_written :
    ∀ (ws : List (Nat × Nat)) (m : Nat → Nat) (ad : Nat),
      (∀ p ∈ ws, p.1 ≠ ad) → applyWrites ws m ad = m ad := by
  intro ws
  induction ws with
  | nil => intro m ad h; rfl
  | cons p ws ih =>
    intro m ad h
    have hp : p.1 ≠ ad := h p (List.mem_cons_self p ws)
    have hws : ∀ q ∈ ws, q.1 ≠ ad := fun q hq => h q (List.mem_cons_of_mem p hq)
    show applyWrites ws (storeMem p.1 p.2 m) ad = m ad
    rw [ih _ _ hws]
    simp only [storeMem]
    rw [if_neg (fun he => hp he.symm)]

/-- `applyWrites` distributes over list append. -/
theorem applyWrites_append (l1 l2 : List (Nat × Nat)) (m : Nat → Nat) :
    applyWrites (l1 ++ l2) m = applyWrites l2 (applyWrites l1 m) := by
  simp [applyWrites, List.foldl_append]

/-- C8: a sequence of `wmem` writes followed by a read of an address with
no intervening write to it yields exactly the last value written there:
the fold of `storeMem` updates (the exact mutation `wmem` performs)
returns the last write, `wmem` performs exactly that `storeMem` update,
and `rmem` reads exactly the current cell into the destination register. -/
theorem wmem_rmem_round_trip :
    (∀ (pre post : List (Nat × Nat)) (ad v : Nat) (m : Nat → Nat),
      (∀ p ∈ post, p.1 ≠ ad) →
      applyWrites (pre ++ (ad, v) :: post) m ad = v) ∧
    (∀ vm ia vm1 ib vm2,
      read_instruction vm = Except.ok (ia, vm1) →
      read_instruction vm1 = Except.ok (ib, vm2) →
      resolve ia vm1 < 32768 →
      wmem vm = Except.ok (Except.ok (),
        { vm2 with memory := storeMem (resolve ia vm1) (resolve ib vm2) vm2.memory })) ∧
    (∀ vm a vm1 ib vm2,
      read_instruction vm = Except.ok (Instruction.Register a, vm1) →
      read_instruction vm1 = Except.ok (ib, vm2) →
      resolve ib vm2 < 32768 →
      rmem vm = Except.ok (Except.ok (),
        { vm2 with registers := storeReg a (vm2.memory (resolve ib vm2)) vm2.registers })) := by
  refine ⟨?_, ?_, ?_⟩
  · intro pre post ad v m h
    rw [applyWrites_append]
    have hc : applyWrites ((ad, v) :: post) (applyWrites pre m) =
        applyWrites post (storeMem ad v (applyWrites pre m)) := rfl
    rw [hc, applyWrites_not_written post _ ad h]
    simp [storeMem]
  · intro vm ia vm1 ib vm2 h1 h2 hlt
    simp only [wmem, h1, h2, if_pos hlt]
  · intro vm a vm1 ib vm2 h1 h2 hlt
    simp only [rmem, h1, h2, if_pos hlt]

/-- C8 witness: the round trip at a concrete write sequence (last write
to address 5 is 3, a later write hits only address 9) and at a concrete
`wmem`/`rmem` machine pair. -/
theorem wmem_rmem_round_trip_witness :
    applyWrites ([(5, 1), (9, 2)] ++ (5, 3) :: [(9, 4)]) (fun _ => 0) 5 = 3 ∧
    wmem (VM.mk (loadImage [5, 7]) (fun _ => 0) [] 0) =
      Except.ok (Except.ok (),
        VM.mk (storeMem 5 7 (loadImage [5, 7])) (fun _ => 0) [] 2) ∧
    rmem (VM.mk (loadImage [32768, 1]) (fun _ => 0) [] 0) =
      Except.ok (Except.ok (),
        VM.mk (loadImage [32768, 1]) (storeReg 0 1 (fun _ => 0)) [] 2) :=
  ⟨wmem_rmem_round_trip.1 [(5, 1), (9, 2)] [(9, 4)] 5 3 (fun _ => 0) (by decide),
   wmem_rmem_round_trip.2.1 (VM.mk (loadImage [5, 7]) (fun _ => 0) [] 0)
     (Instruction.Value 5) (VM.mk (loadImage [5, 7]) (fun _ => 0) [] 1)
     (Instruction.Value 7) (VM.mk (loadImage [5, 7]) (fun _ => 0) [] 2)
     rfl rfl (by decide),
   wmem_rmem_round_trip.2.2 (VM.mk (loadImage [32768, 1]) (fun _ => 0) [] 0)
     0 (VM.mk (loadImage [32768, 1]) (fun _ => 0) [] 1)
     (Instruction.Value 1) (VM.mk (loadImage [32768, 1]) (fun _ => 0) [] 2)
     rfl rfl (by decide)⟩

/-! ## C10 — out never surfaces an I/O error, in does -/

/-- C10 (amended): whenever the `out` handler's operand fetch succeeds,
it returns success whatever the condition of the output stream — the
`io::Result` of the underlying byte write is discarded — whereas the `in`
handler returns an error when the input stream yields no byte. -/
theorem write_discards_io_result :
    (∀ (stdoutCond : Except String Unit) vm out ia vm1,
      read_instruction vm = Except.ok (ia, vm1) →
      write stdoutCond vm out =
        Except.ok (Except.ok (), vm1, out ++ [resolve ia vm1 % 256])) ∧
    (∀ vm a vm1,
      read_instruction vm = Except.ok (Instruction.Register a, vm1) →
      read vm [] = Except.ok (Except.error inputErrMsg, vm1, [])) := by
  constructor
  · intro stdoutCond vm out ia vm1 h1
    simp only [write, h1]
  · intro vm a vm1 h1
    simp only [read, h1]

/-- C10 witness: `out 65` succeeds even on a broken output stream;
`in r0` on an exhausted input stream fails. -/
theorem write_discards_io_result_witness :
    write (Except.error "broken pipe") (VM.mk (loadImage [65]) (fun _ => 0) [] 0) [] =
      Except.ok (Except.ok (), VM.mk (loadImage [65]) (fun _ => 0) [] 1, [65]) ∧
    read (VM.mk (loadImage [32768]) (fun _ => 0) [] 0) [] =
      Except.ok (Except.error inputErrMsg,
        VM.mk (loadImage [32768]) (fun _ => 0) [] 1, []) :=
  ⟨write_discards_io_result.1 (Except.error "broken pipe")
     (VM.mk (loadImage [65]) (fun _ => 0) [] 0) [] (Instruction.Value 65)
     (VM.mk (loadImage [65]) (fun _ => 0) [] 1) rfl,
   write_discards_io_result.2 (VM.mk (loadImage [32768]) (fun _ => 0) [] 0) 0
     (VM.mk (loadImage [32768]) (fun _ => 0) [] 1) rfl⟩

/-- C10 counterexample: `out` does not return success for *every* machine
state — when its operand word is 32776 the operand fetch panics, so the
handler aborts instead of returning success, even with a healthy output
stream. -/
theorem write_not_always_success :
    write (Except.ok ()) (VM.mk (loadImage [32776]) (fun _ => 0) [] 0) [] =
      Except.error RustPanic.invalidInstruction ∧
    isHandlerSuccess
      (write (Except.ok ()) (VM.mk (loadImage [32776]) (fun _ => 0) [] 0) []) =
      false :=
  ⟨rfl, rfl⟩

/-! ## C5 — no partial mutation before a failure -/

theorem halt_frame : FramePreserving halt := by
  intro vm msg vm' h
  simp [halt] at h
  obtain ⟨-, h2⟩ := h
  subst h2
  exact ⟨rfl, rfl, rfl⟩

theorem set_frame : FramePreserving set := by
  intro vm msg vm' h
  cases h1 : read_instruction vm with
  | error p => simp [set, h1] at h
  | ok pr =>
    obtain ⟨i, vm1⟩ := pr
    obtain ⟨ha1, ha2, ha3, -⟩ := read_instruction_frame h1
    cases i with
    | Value x =>
      simp [set, h1] at h
      obtain ⟨-, h2⟩ := h
      subst h2
      exact ⟨ha1, ha2, ha3⟩
    | Register a =>
      cases h2 : read_instruction vm1 with
      | error p => simp [set, h1, h2] at h
      | ok pr2 =>
        obtain ⟨ib, vm2⟩ := pr2
        simp [set, h1, h2] at h

theorem push_frame : FramePreserving push := by
  intro vm msg vm' h
  cases h1 : read_instruction vm with
  | error p => simp [push, h1] at h
  | ok pr =>
    obtain ⟨i, vm1⟩ := pr
    simp [push, h1] at h

theorem pop_frame : FramePreserving pop := by
  intro vm msg vm' h
  cases h1 : read_instruction vm with
  | error p => simp [pop, h1] at h
  | ok pr =>
    obtain ⟨i, vm1⟩ := pr
    obtain ⟨ha1, ha2, ha3, -⟩ := read_instruction_frame h1
    cases i with
    | Value x =>
      simp [pop, h1] at h
      obtain ⟨-, h2⟩ := h
      subst h2
      exact ⟨ha1, ha2, ha3⟩
    | Register a =>
      cases hs : vm1.stack with
      | nil =>
        simp [pop, h1, hs] at h
        obtain ⟨-, h2⟩ := h
        subst h2
        exact ⟨ha1, ha2, ha3⟩
      | cons b rest =>
        simp [pop, h1, hs] at h

theorem eq_frame : FramePreserving eq := by
  intro vm msg vm' h
  cases h1 : read_instruction vm with
  | error p => simp [eq, h1] at h
  | ok pr =>
    obtain ⟨i, vm1⟩ := pr
    obtain ⟨ha1, ha2, ha3, -⟩ := read_instruction_frame h1
    cases i with
    | Value x =>
      simp [eq, h1] at h
      obtain ⟨-, h2⟩ := h
      subst h2
      exact ⟨ha1, ha2, ha3⟩
    | Register a =>
      cases h2 : read_instruction vm1 with
      | error p => simp [eq, h1, h2] at h
      | ok pr2 =>
        obtain ⟨ib, vm2⟩ := pr2
        cases h3 : read_instruction vm2 with
        | error p => simp [eq, h1, h2, h3] at h
        | ok pr3 =>
          obtain ⟨ic, vm3⟩ := pr3
          simp [eq, h1, h2, h3] at h

theorem gt_frame : FramePreserving gt := by
  intro vm msg vm' h
  cases h1 : read_instruction vm with
  | error p => simp [gt, h1] at h
  | ok pr =>
    obtain ⟨i, vm1⟩ := pr
    obtain ⟨ha1, ha2, ha3, -⟩ := read_instruction_frame h1
    cases i with
    | Value x =>
      simp [gt, h1] at h
      obtain ⟨-, h2⟩ := h
      subst h2
      exact ⟨ha1, ha2, ha3⟩
    | Register a =>
      cases h2 : read_instruction vm1 with
      | error p => simp [gt, h1, h2] at h
      | ok pr2 =>
        obtain ⟨ib, vm2⟩ := pr2
        cases h3 : read_instruction vm2 with
        | error p => simp [gt, h1, h2, h3] at h
        | ok pr3 =>
          obtain ⟨ic, vm3⟩ := pr3
          simp [gt, h1, h2, h3] at h

theorem jmp_frame : FramePreserving jmp := by
  intro vm msg vm' h
  cases h1 : read_instruction vm with
  | error p => simp [jmp, h1] at h
  | ok pr =>
    obtain ⟨i, vm1⟩ := pr
    simp [jmp, h1] at h

theorem jt_frame : FramePreserving jt := by
  intro vm msg vm' h
  cases h1 : read_instruction vm with
  | error p => simp [jt, h1] at h
  | ok pr =>
    obtain ⟨i, vm1⟩ := pr
    cases h2 : read_instruction vm1 with
    | error p => simp [jt, h1, h2] at h
    | ok pr2 =>
      obtain ⟨ib, vm2⟩ := pr2
      cases ha : resolve i vm1 with
      | zero => simp [jt, h1, h2, ha] at h
      | succ n => simp [jt, h1, h2, ha] at h

theorem jf_frame : FramePreserving jf := by
  intro vm msg vm' h
  cases h1 : read_instruction vm with
  | error p => simp [jf, h1] at h
  | ok pr =>
    obtain ⟨i, vm1⟩ := pr
    cases h2 : read_instruction vm1 with
    | error p => simp [jf, h1, h2] at h
    | ok pr2 =>
      obtain ⟨ib, vm2⟩ := pr2
      cases ha : resolve i vm1 with
      | zero => simp [jf, h1, h2, ha] at h
      | succ n => simp [jf, h1, h2, ha] at h

theorem add_frame : FramePreserving add := by
  intro vm msg vm' h
  cases h1 : read_instruction vm with
  | error p => simp [add, h1] at h
  | ok pr =>
    obtain ⟨i, vm1⟩ := pr
    obtain ⟨ha1, ha2, ha3, -⟩ := read_instruction_frame h1
    cases i with
    | Value x =>
      simp [add, h1] at h
      obtain ⟨-, h2⟩ := h
      subst h2
      exact ⟨ha1, ha2, ha3⟩
    | Register a =>
      cases h2 : read_instruction vm1 with
      | error p => simp [add, h1, h2] at h
      | ok pr2 =>
        obtain ⟨ib, vm2⟩ := pr2
        cases h3 : read_instruction vm2 with
        | error p => simp [add, h1, h2, h3] at h
        | ok pr3 =>
          obtain ⟨ic, vm3⟩ := pr3
          simp [add, h1, h2, h3] at h

theorem mult_frame : FramePreserving mult := by
  intro vm msg vm' h
  cases h1 : read_instruction vm with
  | error p => simp [mult, h1] at h
  | ok pr =>
    obtain ⟨i, vm1⟩ := pr
    obtain ⟨ha1, ha2, ha3, -⟩ := read_instruction_frame h1
    cases i with
    | Value x =>
      simp [mult, h1] at h
      obtain ⟨-, h2⟩ := h
      subst h2
      exact ⟨ha1, ha2, ha3⟩
    | Register a =>
      cases h2 : read_instruction vm1 with
      | error p => simp [mult, h1, h2] at h
      | ok pr2 =>
        obtain ⟨ib, vm2⟩ := pr2
        cases h3 : read_instruction vm2 with
        | error p => simp [mult, h1, h2, h3] at h
        | ok pr3 =>
          obtain ⟨ic, vm3⟩ := pr3
          simp [mult, h1, h2, h3] at h

theorem rem_frame : FramePreserving rem := by
  intro vm msg vm' h
  cases h1 : read_instruction vm with
  | error p => simp [rem, h1] at h
  | ok pr =>
    obtain ⟨i, vm1⟩ := pr
    obtain ⟨ha1, ha2, ha3, -⟩ := read_instruction_frame h1
    cases i with
    | Value x =>
      simp [rem, h1] at h
      obtain ⟨-, h2⟩ := h
      subst h2
      exact ⟨ha1, ha2, ha3⟩
    | Register a =>
      cases h2 : read_instruction vm1 with
      | error p => simp [rem, h1, h2] at h
      | ok pr2 =>
        obtain ⟨ib, vm2⟩ := pr2
        cases h3 : read_instruction vm2 with
        | error p => simp [rem, h1, h2, h3] at h
        | ok pr3 =>
          obtain ⟨ic, vm3⟩ := pr3
          simp only [rem, h1, h2, h3] at h
          split at h
          · simp at h
          · simp at h

theorem and_frame : FramePreserving and := by
  intro vm msg vm' h
  cases h1 : read_instruction vm with
  | error p => simp [and, h1] at h
  | ok pr =>
    obtain ⟨i, vm1⟩ := pr
    obtain ⟨ha1, ha2, ha3, -⟩ := read_instruction_frame h1
    cases i with
    | Value x =>
      simp [and, h1] at h
      obtain ⟨-, h2⟩ := h
      subst h2
      exact ⟨ha1, ha2, ha3⟩
    | Register a =>
      cases h2 : read_instruction vm1 with
      | error p => simp [and, h1, h2] at h
      | ok pr2 =>
        obtain ⟨ib, vm2⟩ := pr2
        cases h3 : read_instruction vm2 with
        | error p => simp [and, h1, h2, h3] at h
        | ok pr3 =>
          obtain ⟨ic, vm3⟩ := pr3
          simp [and, h1, h2, h3] at h

theorem or_frame : FramePreserving or := by
  intro vm msg vm' h
  cases h1 : read_instruction vm with
  | error p => simp [or, h1] at h
  | ok pr =>
    obtain ⟨i, vm1⟩ := pr
    obtain ⟨ha1, ha2, ha3, -⟩ := read_instruction_frame h1
    cases i with
    | Value x =>
      simp [or, h1] at h
      obtain ⟨-, h2⟩ := h
      subst h2
      exact ⟨ha1, ha2, ha3⟩
    | Register a =>
      cases h2 : read_instruction vm1 with
      | error p => simp [or, h1, h2] at h
      | ok pr2 =>
        obtain ⟨ib, vm2⟩ := pr2
        cases h3 : read_instruction vm2 with
        | error p => simp [or, h1, h2, h3] at h
        | ok pr3 =>
          obtain ⟨ic, vm3⟩ := pr3
          simp [or, h1, h2, h3] at h

theorem not_frame : FramePreserving not := by
  intro vm msg vm' h
  cases h1 : read_instruction vm with
  | error p => simp [not, h1] at h
  | ok pr =>
    obtain ⟨i, vm1⟩ := pr
    obtain ⟨ha1, ha2, ha3, -⟩ := read_instruction_frame h1
    cases i with
    | Value x =>
      simp [not, h1] at h
      obtain ⟨-, h2⟩ := h
      subst h2
      exact ⟨ha1, ha2, ha3⟩
    | Register a =>
      cases h2 : read_instruction vm1 with
      | error p => simp [not, h1, h2] at h
      | ok pr2 =>
        obtain ⟨ib, vm2⟩ := pr2
        simp [not, h1, h2] at h

theorem rmem_frame : FramePreserving rmem := by
  intro vm msg vm' h
  cases h1 : read_instruction vm with
  | error p => simp [rmem, h1] at h
  | ok pr =>
    obtain ⟨i, vm1⟩ := pr
    obtain ⟨ha1, ha2, ha3, -⟩ := read_instruction_frame h1
    cases i with
    | Value x =>
      simp [rmem, h1] at h
      obtain ⟨-, h2⟩ := h
      subst h2
      exact ⟨ha1, ha2, ha3⟩
    | Register a =>
      cases h2 : read_instruction vm1 with
      | error p => simp [rmem, h1, h2] at h
      | ok pr2 =>
        obtain ⟨ib, vm2⟩ := pr2
        simp only [rmem, h1, h2] at h
        split at h
        · simp at h
        · simp at h

theorem wmem_frame : FramePreserving wmem := by
  intro vm msg vm' h
  cases h1 : read_instruction vm with
  | error p => simp [wmem, h1] at h
  | ok pr =>
    obtain ⟨i, vm1⟩ := pr
    cases h2 : read_instruction vm1 with
    | error p => simp [wmem, h1, h2] at h
    | ok pr2 =>
      obtain ⟨ib, vm2⟩ := pr2
      simp only [wmem, h1, h2] at h
      split at h
      · simp at h
      · simp at h

theorem call_frame : FramePreserving call := by
  intro vm msg vm' h
  cases h1 : read_instruction vm with
  | error p => simp [call, h1] at h
  | ok pr =>
    obtain ⟨i, vm1⟩ := pr
    simp [call, h1] at h

theorem ret_frame : FramePreserving ret := by
  intro vm msg vm' h
  cases hs : vm.stack with
  | nil =>
    simp [ret, hs] at h
    obtain ⟨-, h2⟩ := h
    subst h2
    simp_all
  | cons x rest =>
    simp [ret, hs] at h

theorem write_frame :
    ∀ (stdoutCond : Except String Unit) vm out msg vm' out2,
      write stdoutCond vm out = Except.ok (Except.error msg, vm', out2) →
      vm'.registers = vm.registers ∧ vm'.memory = vm.memory ∧
        vm'.stack = vm.stack := by
  intro stdoutCond vm out msg vm' out2 h
  cases h1 : read_instruction vm with
  | error p => simp [write, h1] at h
  | ok pr =>
    obtain ⟨i, vm1⟩ := pr
    simp [write, h1] at h

theorem read_handler_frame :
    ∀ vm inp msg vm' inp2,
      read vm inp = Except.ok (Except.error msg, vm', inp2) →
      vm'.registers = vm.registers ∧ vm'.memory = vm.memory ∧
        vm'.stack = vm.stack := by
  intro vm inp msg vm' inp2 h
  cases h1 : read_instruction vm with
  | error p => simp [read, h1] at h
  | ok pr =>
    obtain ⟨i, vm1⟩ := pr
    obtain ⟨ha1, ha2, ha3, -⟩ := read_instruction_frame h1
    cases i with
    | Value x =>
      simp [read, h1] at h
      obtain ⟨-, h2, -⟩ := h
      subst h2
      exact ⟨ha1, ha2, ha3⟩
    | Register a =>
      cases inp with
      | nil =>
        simp [read, h1] at h
        obtain ⟨-, h2, -⟩ := h
        subst h2
        exact ⟨ha1, ha2, ha3⟩
      | cons b rest =>
        simp [read, h1] at h

/-- C5: every handler that returns a failure on the `Result` channel
(ExpectedRegisterOperand on a literal write-destination, stack underflow,
a failed input read, halt's designed `Err`) leaves registers, memory and
stack exactly as they were when the handler started — no partial mutation
precedes any failure within one instruction. -/
theorem handlers_no_partial_mutation_on_error :
    FramePreserving halt ∧ FramePreserving set ∧ FramePreserving push ∧
    FramePreserving pop ∧ FramePreserving eq ∧ FramePreserving gt ∧
    FramePreserving jmp ∧ FramePreserving jt ∧ FramePreserving jf ∧
    FramePreserving add ∧ FramePreserving mult ∧ FramePreserving rem ∧
    FramePreserving and ∧ FramePreserving or ∧ FramePreserving not ∧
    FramePreserving rmem ∧ FramePreserving wmem ∧ FramePreserving call ∧
    FramePreserving ret ∧
    (∀ (stdoutCond : Except String Unit) vm out msg vm' out2,
      write stdoutCond vm out = Except.ok (Except.error msg, vm', out2) →
      vm'.registers = vm.registers ∧ vm'.memory = vm.memory ∧
        vm'.stack = vm.stack) ∧
    (∀ vm inp msg vm' inp2,
      read vm inp = Except.ok (Except.error msg, vm', inp2) →
      vm'.registers = vm.registers ∧ vm'.memory = vm.memory ∧
        vm'.stack = vm.stack) :=
  ⟨halt_frame, set_frame, push_frame, pop_frame, eq_frame, gt_frame,
   jmp_frame, jt_frame, jf_frame, add_frame, mult_frame, rem_frame,
   and_frame, or_frame, not_frame, rmem_frame, wmem_frame, call_frame,
   ret_frame, write_frame, read_handler_frame⟩

/-- C5 witness: `set` with a literal destination (image `[5]`) fails and
leaves registers, memory and stack untouched. -/
theorem handlers_no_partial_mutation_on_error_witness :
    (VM.mk (loadImage [5]) (fun _ => 0) [] 1).registers =
      (VM.mk (loadImage [5]) (fun _ => 0) [] 0).registers ∧
    (VM.mk (loadImage [5]) (fun _ => 0) [] 1).memory =
      (VM.mk (loadImage [5]) (fun _ => 0) [] 0).memory ∧
    (VM.mk (loadImage [5]) (fun _ => 0) [] 1).stack =
      (VM.mk (loadImage [5]) (fun _ => 0) [] 0).stack :=
  handlers_no_partial_mutation_on_error.2.1
    (VM.mk (loadImage [5]) (fun _ => 0) [] 0) writeToValueMsg
    (VM.mk (loadImage [5]) (fun _ => 0) [] 1) rfl

/-! ## C3 — register-range invariant -/

theorem addOp_le (b c : Nat) : addOp b c ≤ 32767 := by
  have h := Nat.mod_lt ((b + c) % 65536) (show 0 < MODULO by decide)
  unfold MODULO at h
  simp only [addOp, MODULO]
  omega

theorem multOp_le (b c : Nat) : multOp b c ≤ 32767 := by
  have h := Nat.mod_lt ((b * c) % 65536) (show 0 < MODULO by decide)
  unfold MODULO at h
  simp only [multOp, MODULO]
  omega

theorem land_le_32767 (b c : Nat) (hc : c ≤ 32767) : b &&& c ≤ 32767 := by
  have h := Nat.and_lt_two_pow b (show c < 2 ^ 15 by omega)
  have h15 : (2 : Nat) ^ 15 = 32768 := by norm_num
  omega

theorem lor_le_32767 (b c : Nat) (hb : b ≤ 32767) (hc : c ≤ 32767) :
    b ||| c ≤ 32767 := by
  have h := Nat.or_lt_two_pow (show b < 2 ^ 15 by omega) (show c < 2 ^ 15 by omega)
  have h15 : (2 : Nat) ^ 15 = 32768 := by norm_num
  omega

theorem xor_32767_le (b : Nat) (hb : b ≤ 32767) : b ^^^ 32767 ≤ 32767 := by
  have h := Nat.xor_lt_two_pow (show b < 2 ^ 15 by omega)
    (show 32767 < 2 ^ 15 by norm_num)
  have h15 : (2 : Nat) ^ 15 = 32768 := by norm_num
  omega

theorem storeReg_le {regs : Nat → Nat} {a v : Nat}
    (hr : ∀ i, regs i ≤ 32767) (hv : v ≤ 32767) :
    ∀ i, storeReg a v regs i ≤ 32767 := by
  intro i
  unfold storeReg
  split
  · exact hv
  · exact hr i

/-- A fetch leaves the register file untouched, so its goodness carries over. -/
theorem goodRegs_of_fetch {vm vm1 : VM} {i : Instruction}
    (h : read_instruction vm = Except.ok (i, vm1)) (hg : GoodRegs vm) :
    GoodRegs vm1 := by
  intro j
  rw [(read_instruction_frame h).1]
  exact hg j

/-- A fetched operand resolves within `0..32767` when registers are good:
literals are bounded by the decoder, register reads by `GoodRegs`. -/
theorem resolve_le_of_fetch {vm0 vm1 : VM} {i : Instruction}
    (h : read_instruction vm0 = Except.ok (i, vm1)) (hg : GoodRegs vm1) :
    resolve i vm1 ≤ 32767 := by
  cases i with
  | Value x => exact read_instruction_value_le h
  | Register a => exact hg a

theorem set_goodRegs :
    ∀ vm e vm', GoodRegs vm → set vm = Except.ok (e, vm') → GoodRegs vm' := by
  intro vm e vm' hreg h
  cases h1 : read_instruction vm with
  | error p => simp [set, h1] at h
  | ok pr =>
    obtain ⟨i, vm1⟩ := pr
    have hreg1 : GoodRegs vm1 := goodRegs_of_fetch h1 hreg
    cases i with
    | Value x =>
      simp [set, h1] at h
      obtain ⟨-, h2⟩ := h
      subst h2
      exact hreg1
    | Register a =>
      cases h2 : read_instruction vm1 with
      | error p => simp [set, h1, h2] at h
      | ok pr2 =>
        obtain ⟨ib, vm2⟩ := pr2
        have hreg2 : GoodRegs vm2 := goodRegs_of_fetch h2 hreg1
        simp [set, h1, h2] at h
        obtain ⟨-, h3⟩ := h
        subst h3
        exact storeReg_le hreg2 (resolve_le_of_fetch h2 hreg2)

theorem pop_goodRegs :
    ∀ vm e vm', GoodRegs vm → (∀ x ∈ vm.stack, x ≤ 32767) →
      pop vm = Except.ok (e, vm') → GoodRegs vm' := by
  intro vm e vm' hreg hstk h
  cases h1 : read_instruction vm with
  | error p => simp [pop, h1] at h
  | ok pr =>
    obtain ⟨i, vm1⟩ := pr
    have hreg1 : GoodRegs vm1 := goodRegs_of_fetch h1 hreg
    cases i with
    | Value x =>
      simp [pop, h1] at h
      obtain ⟨-, h2⟩ := h
      subst h2
      exact hreg1
    | Register a =>
      cases hs : vm1.stack with
      | nil =>
        simp [pop, h1, hs] at h
        obtain ⟨-, h2⟩ := h
        subst h2
        exact hreg1
      | cons b rest =>
        simp [pop, h1, hs] at h
        obtain ⟨-, h2⟩ := h
        subst h2
        have hb : b ≤ 32767 := by
          have hseq : vm1.stack = vm.stack := (read_instruction_frame h1).2.2.1
          exact hstk b (by rw [← hseq, hs]; exact List.mem_cons_self b rest)
        exact storeReg_le hreg1 hb

theorem eq_goodRegs :
    ∀ vm e vm', GoodRegs vm → eq vm = Except.ok (e, vm') → GoodRegs vm' := by
  intro vm e vm' hreg h
  cases h1 : read_instruction vm with
  | error p => simp [eq, h1] at h
  | ok pr =>
    obtain ⟨i, vm1⟩ := pr
    have hreg1 : GoodRegs vm1 := goodRegs_of_fetch h1 hreg
    cases i with
    | Value x =>
      simp [eq, h1] at h
      obtain ⟨-, h2⟩ := h
      subst h2
      exact hreg1
    | Register a =>
      cases h2 : read_instruction vm1 with
      | error p => simp [eq, h1, h2] at h
      | ok pr2 =>
        obtain ⟨ib, vm2⟩ := pr2
        have hreg2 : GoodRegs vm2 := goodRegs_of_fetch h2 hreg1
        cases h3 : read_instruction vm2 with
        | error p => simp [eq, h1, h2, h3] at h
        | ok pr3 =>
          obtain ⟨ic, vm3⟩ := pr3
          have hreg3 : GoodRegs vm3 := goodRegs_of_fetch h3 hreg2
          simp [eq, h1, h2, h3] at h
          obtain ⟨-, h4⟩ := h
          subst h4
          exact storeReg_le hreg3 (by split <;> decide)

theorem gt_goodRegs :
    ∀ vm e vm', GoodRegs vm → gt vm = Except.ok (e, vm') → GoodRegs vm' := by
  intro vm e vm' hreg h
  cases h1 : read_instruction vm with
  | error p => simp [gt, h1] at h
  | ok pr =>
    obtain ⟨i, vm1⟩ := pr
    have hreg1 : GoodRegs vm1 := goodRegs_of_fetch h1 hreg
    cases i with
    | Value x =>
      simp [gt, h1] at h
      obtain ⟨-, h2⟩ := h
      subst h2
      exact hreg1
    | Register a =>
      cases h2 : read_instruction vm1 with
      | error p => simp [gt, h1, h2] at h
      | ok pr2 =>
        obtain ⟨ib, vm2⟩ := pr2
        have hreg2 : GoodRegs vm2 := goodRegs_of_fetch h2 hreg1
        cases h3 : read_instruction vm2 with
        | error p => simp [gt, h1, h2, h3] at h
        | ok pr3 =>
          obtain ⟨ic, vm3⟩ := pr3
          have hreg3 : GoodRegs vm3 := goodRegs_of_fetch h3 hreg2
          simp [gt, h1, h2, h3] at h
          obtain ⟨-, h4⟩ := h
          subst h4
          exact storeReg_le hreg3 (by split <;> decide)

theorem add_goodRegs :
    ∀ vm e vm', GoodRegs vm → add vm = Except.ok (e, vm') → GoodRegs vm' := by
  intro vm e vm' hreg h
  cases h1 : read_instruction vm with
  | error p => simp [add, h1] at h
  | ok pr =>
    obtain ⟨i, vm1⟩ := pr
    have hreg1 : GoodRegs vm1 := goodRegs_of_fetch h1 hreg
    cases i with
    | Value x =>
      simp [add, h1] at h
      obtain ⟨-, h2⟩ := h
      subst h2
      exact hreg1
    | Register a =>
      cases h2 : read_instruction vm1 with
      | error p => simp [add, h1, h2] at h
      | ok pr2 =>
        obtain ⟨ib, vm2⟩ := pr2
        cases h3 : read_instruction vm2 with
        | error p => simp [add, h1, h2, h3] at h
        | ok pr3 =>
          obtain ⟨ic, vm3⟩ := pr3
          have hreg3 : GoodRegs vm3 :=
            goodRegs_of_fetch h3 (goodRegs_of_fetch h2 hreg1)
          simp [add, h1, h2, h3] at h
          obtain ⟨-, h4⟩ := h
          subst h4
          exact storeReg_le hreg3 (addOp_le _ _)

theorem mult_goodRegs :
    ∀ vm e vm', GoodRegs vm → mult vm = Except.ok (e, vm') → GoodRegs vm' := by
  intro vm e vm' hreg h
  cases h1 : read_instruction vm with
  | error p => simp [mult, h1] at h
  | ok pr =>
    obtain ⟨i, vm1⟩ := pr
    have hreg1 : GoodRegs vm1 := goodRegs_of_fetch h1 hreg
    cases i with
    | Value x =>
      simp [mult, h1] at h
      obtain ⟨-, h2⟩ := h
      subst h2
      exact hreg1
    | Register a =>
      cases h2 : read_instruction vm1 with
      | error p => simp [mult, h1, h2] at h
      | ok pr2 =>
        obtain ⟨ib, vm2⟩ := pr2
        cases h3 : read_instruction vm2 with
        | error p => simp [mult, h1, h2, h3] at h
        | ok pr3 =>
          obtain ⟨ic, vm3⟩ := pr3
          have hreg3 : GoodRegs vm3 :=
            goodRegs_of_fetch h3 (goodRegs_of_fetch h2 hreg1)
          simp [mult, h1, h2, h3] at h
          obtain ⟨-, h4⟩ := h
          subst h4
          exact storeReg_le hreg3 (multOp_le _ _)

theorem rem_goodRegs :
    ∀ vm e vm', GoodRegs vm → rem vm = Except.ok (e, vm') → GoodRegs vm' := by
  intro vm e vm' hreg h
  cases h1 : read_instruction vm with
  | error p => simp [rem, h1] at h
  | ok pr =>
    obtain ⟨i, vm1⟩ := pr
    have hreg1 : GoodRegs vm1 := goodRegs_of_fetch h1 hreg
    cases i with
    | Value x =>
      simp [rem, h1] at h
      obtain ⟨-, h2⟩ := h
      subst h2
      exact hreg1
    | Register a =>
      cases h2 : read_instruction vm1 with
      | error p => simp [rem, h1, h2] at h
      | ok pr2 =>
        obtain ⟨ib, vm2⟩ := pr2
        have hreg2 : GoodRegs vm2 := goodRegs_of_fetch h2 hreg1
        cases h3 : read_instruction vm2 with
        | error p => simp [rem, h1, h2, h3] at h
        | ok pr3 =>
          obtain ⟨ic, vm3⟩ := pr3
          have hreg3 : GoodRegs vm3 := goodRegs_of_fetch h3 hreg2
          simp only [rem, h1, h2, h3] at h
          split at h
          · simp at h
          · simp only [Except.ok.injEq, Prod.mk.injEq] at h
            obtain ⟨-, h4⟩ := h
            subst h4
            exact storeReg_le hreg3
              (le_trans (Nat.mod_le _ _) (resolve_le_of_fetch h2 hreg2))

theorem and_goodRegs :
    ∀ vm e vm', GoodRegs vm → and vm = Except.ok (e, vm') → GoodRegs vm' := by
  intro vm e vm' hreg h
  cases h1 : read_instruction vm with
  | error p => simp [and, h1] at h
  | ok pr =>
    obtain ⟨i, vm1⟩ := pr
    have hreg1 : GoodRegs vm1 := goodRegs_of_fetch h1 hreg
    cases i with
    | Value x =>
      simp [and, h1] at h
      obtain ⟨-, h2⟩ := h
      subst h2
      exact hreg1
    | Register a =>
      cases h2 : read_instruction vm1 with
      | error p => simp [and, h1, h2] at h
      | ok pr2 =>
        obtain ⟨ib, vm2⟩ := pr2
        cases h3 : read_instruction vm2 with
        | error p => simp [and, h1, h2, h3] at h
        | ok pr3 =>
          obtain ⟨ic, vm3⟩ := pr3
          have hreg3 : GoodRegs vm3 :=
            goodRegs_of_fetch h3 (goodRegs_of_fetch h2 hreg1)
          simp [and, h1, h2, h3] at h
          obtain ⟨-, h4⟩ := h
          subst h4
          exact storeReg_le hreg3
            (land_le_32767 _ _ (resolve_le_of_fetch h3 hreg3))

theorem or_goodRegs :
    ∀ vm e vm', GoodRegs vm → or vm = Except.ok (e, vm') → GoodRegs vm' := by
  intro vm e vm' hreg h
  cases h1 : read_instruction vm with
  | error p => simp [or, h1] at h
  | ok pr =>
    obtain ⟨i, vm1⟩ := pr
    have hreg1 : GoodRegs vm1 := goodRegs_of_fetch h1 hreg
    cases i with
    | Value x =>
      simp [or, h1] at h
      obtain ⟨-, h2⟩ := h
      subst h2
      exact hreg1
    | Register a =>
      cases h2 : read_instruction vm1 with
      | error p => simp [or, h1, h2] at h
      | ok pr2 =>
        obtain ⟨ib, vm2⟩ := pr2
        have hreg2 : GoodRegs vm2 := goodRegs_of_fetch h2 hreg1
        cases h3 : read_instruction vm2 with
        | error p => simp [or, h1, h2, h3] at h
        | ok pr3 =>
          obtain ⟨ic, vm3⟩ := pr3
          have hreg3 : GoodRegs vm3 := goodRegs_of_fetch h3 hreg2
          have hb : resolve ib vm2 ≤ 32767 := resolve_le_of_fetch h2 hreg2
          simp [or, h1, h2, h3] at h
          obtain ⟨-, h4⟩ := h
          subst h4
          exact storeReg_le hreg3
            (lor_le_32767 _ _ hb (resolve_le_of_fetch h3 hreg3))

theorem not_goodRegs :
    ∀ vm e vm', GoodRegs vm → not vm = Except.ok (e, vm') → GoodRegs vm' := by
  intro vm e vm' hreg h
  cases h1 : read_instruction vm with
  | error p => simp [not, h1] at h
  | ok pr =>
    obtain ⟨i, vm1⟩ := pr
    have hreg1 : GoodRegs vm1 := goodRegs_of_fetch h1 hreg
    cases i with
    | Value x =>
      simp [not, h1] at h
      obtain ⟨-, h2⟩ := h
      subst h2
      exact hreg1
    | Register a =>
      cases h2 : read_instruction vm1 with
      | error p => simp [not, h1, h2] at h
      | ok pr2 =>
        obtain ⟨ib, vm2⟩ := pr2
        have hreg2 : GoodRegs vm2 := goodRegs_of_fetch h2 hreg1
        simp [not, h1, h2] at h
        obtain ⟨-, h3⟩ := h
        subst h3
        exact storeReg_le hreg2
          (xor_32767_le _ (resolve_le_of_fetch h2 hreg2))

theorem read_goodRegs :
    ∀ vm inp e vm' inp2, GoodRegs vm → (∀ x ∈ inp, x ≤ 255) →
      read vm inp = Except.ok (e, vm', inp2) → GoodRegs vm' := by
  intro vm inp e vm' inp2 hreg hinp h
  cases h1 : read_instruction vm with
  | error p => simp [read, h1] at h
  | ok pr =>
    obtain ⟨i, vm1⟩ := pr
    have hreg1 : GoodRegs vm1 := goodRegs_of_fetch h1 hreg
    cases i with
    | Value x =>
      simp [read, h1] at h
      obtain ⟨-, h2, -⟩ := h
      subst h2
      exact hreg1
    | Register a =>
      cases inp with
      | nil =>
        simp [read, h1] at h
        obtain ⟨-, h2, -⟩ := h
        subst h2
        exact hreg1
      | cons b rest =>
        simp [read, h1] at h
        obtain ⟨-, h2, -⟩ := h
        subst h2
        have hb : b ≤ 32767 :=
          le_trans (hinp b (List.mem_cons_self b rest)) (by decide)
        exact storeReg_le hreg1 hb

theorem rmem_goodRegs :
    ∀ vm a vm1 ib vm2, GoodRegs vm →
      read_instruction vm = Except.ok (Instruction.Register a, vm1) →
      read_instruction vm1 = Except.ok (ib, vm2) →
      resolve ib vm2 < 32768 →
      vm2.memory (resolve ib vm2) ≤ 32767 →
      GoodRegs { vm2 with registers :=
                   storeReg a (vm2.memory (resolve ib vm2)) vm2.registers } := by
  intro vm a vm1 ib vm2 hreg h1 h2 hlt hcell
  have hreg2 : GoodRegs vm2 := goodRegs_of_fetch h2 (goodRegs_of_fetch h1 hreg)
  exact storeReg_le hreg2 hcell

/-- C3 (amended): the handlers that write a register keep every register
in `0..32767` whenever the registers they start from are in range (and,
where relevant, the stack or input values they consume are in range):
this holds unconditionally of the program image for `set`, `pop`, `eq`,
`gt`, `add`, `mult`, `mod`, `and`, `or`, `not` and `in`.  For `rmem` it
holds only when the memory cell being read is itself `≤ 32767`: `rmem`
copies a raw memory word into a register unreduced, so an image word
`≥ 32768` read by `rmem` breaks the invariant (see the counterexample). -/
theorem write_handlers_keep_registers_in_range :
    (∀ vm e vm', GoodRegs vm → set vm = Except.ok (e, vm') → GoodRegs vm') ∧
    (∀ vm e vm', GoodRegs vm → (∀ x ∈ vm.stack, x ≤ 32767) →
      pop vm = Except.ok (e, vm') → GoodRegs vm') ∧
    (∀ vm e vm', GoodRegs vm → eq vm = Except.ok (e, vm') → GoodRegs vm') ∧
    (∀ vm e vm', GoodRegs vm → gt vm = Except.ok (e, vm') → GoodRegs vm') ∧
    (∀ vm e vm', GoodRegs vm → add vm = Except.ok (e, vm') → GoodRegs vm') ∧
    (∀ vm e vm', GoodRegs vm → mult vm = Except.ok (e, vm') → GoodRegs vm') ∧
    (∀ vm e vm', GoodRegs vm → rem vm = Except.ok (e, vm') → GoodRegs vm') ∧
    (∀ vm e vm', GoodRegs vm → and vm = Except.ok (e, vm') → GoodRegs vm') ∧
    (∀ vm e vm', GoodRegs vm → or vm = Except.ok (e, vm') → GoodRegs vm') ∧
    (∀ vm e vm', GoodRegs vm → not vm = Except.ok (e, vm') → GoodRegs vm') ∧
    (∀ vm inp e vm' inp2, GoodRegs vm → (∀ x ∈ inp, x ≤ 255) →
      read vm inp = Except.ok (e, vm', inp2) → GoodRegs vm') ∧
    (∀ vm a vm1 ib vm2, GoodRegs vm →
      read_instruction vm = Except.ok (Instruction.Register a, vm1) →
      read_instruction vm1 = Except.ok (ib, vm2) →
      resolve ib vm2 < 32768 →
      vm2.memory (resolve ib vm2) ≤ 32767 →
      GoodRegs { vm2 with registers :=
                   storeReg a (vm2.memory (resolve ib vm2)) vm2.registers }) :=
  ⟨set_goodRegs, pop_goodRegs, eq_goodRegs, gt_goodRegs, add_goodRegs,
   mult_goodRegs, rem_goodRegs, and_goodRegs, or_goodRegs, not_goodRegs,
   read_goodRegs, rmem_goodRegs⟩

/-- C3 witness: `set r0, 5` from the all-zero register file leaves all
registers in range, and so does `rmem r0, [1]` reading the in-range cell
value 1. -/
theorem write_handlers_keep_registers_in_range_witness :
    GoodRegs (VM.mk (loadImage [32768, 5]) (storeReg 0 5 (fun _ => 0)) [] 2) ∧
    GoodRegs (VM.mk (loadImage [32768, 1]) (storeReg 0 1 (fun _ => 0)) [] 2) :=
  ⟨write_handlers_keep_registers_in_range.1
     (VM.mk (loadImage [32768, 5]) (fun _ => 0) [] 0) (Except.ok ())
     (VM.mk (loadImage [32768, 5]) (storeReg 0 5 (fun _ => 0)) [] 2)
     (fun _ => Nat.zero_le _) rfl,
   write_handlers_keep_registers_in_range.2.2.2.2.2.2.2.2.2.2.2
     (VM.mk (loadImage [32768, 1]) (fun _ => 0) [] 0) 0
     (VM.mk (loadImage [32768, 1]) (fun _ => 0) [] 1)
     (Instruction.Value 1) (VM.mk (loadImage [32768, 1]) (fun _ => 0) [] 2)
     (fun _ => Nat.zero_le _) rfl rfl (by decide) (by decide)⟩

/-- C3 counterexample: on the image `[15, 32768, 3, 40000]` — `rmem r0, [3]`
where cell 3 holds the raw word 40000 — the executed `rmem` leaves
register 0 holding 40000, outside `0..32767`; registers do not always
stay in the literal range for arbitrary images. -/
theorem rmem_register_out_of_range :
    (execute_program 1 (initVM [15, 32768, 3, 40000]) [] []).2.1.registers 0
      = 40000 ∧
    ¬ ((execute_program 1 (initVM [15, 32768, 3, 40000]) [] []).2.1.registers 0
      ≤ 32767) :=
  ⟨rfl, by decide⟩

end Synacor
